import Mathlib

/-!
Verification of the chunked publish protocol of the walrus-sites repository.

The embedded code is the pair of publishing scripts
`scripts/publish_big_site.py` (PIECE_SIZE 15000) and
`move/blocksite/publish_big_site.py` (PIECE_SIZE 10000).  Both follow the
same pattern: `create_blocksite(package_id, site[:S])` issues the creation
call, then `for idx in range(S, len(site), S): add_piece(site_id,
site[idx:idx+S], package_id)` issues one append call per remaining slice.
-/

namespace BlocksitePublish

/-- Python `range(start, stop, step)` for a positive `step`: the list
`start, start+step, ...` of all values below `stop`.  Its length is
`ceil((stop-start)/step)`, truncated subtraction making it empty when
`stop ≤ start`. -/
def pyRange (start stop step : ℕ) : List ℕ :=
  (List.range ((stop - start + (step - 1)) / step)).map (fun i => start + i * step)

/-- The ordered piece list produced by `publish_big_site`: the create payload
`site[:S]` followed by the append payloads `site[idx:idx+S]` for
`idx in range(S, len(site), S)`. -/
def chunk (content : List α) (S : ℕ) : List (List α) :=
  content.take S ::
    (pyRange S content.length S).map (fun idx => (content.drop idx).take S)

lemma pyRange_eq_nil (start stop step : ℕ) (hs : 0 < step) (h : stop ≤ start) :
    pyRange start stop step = [] := by
  unfold pyRange
  have h0 : stop - start = 0 := Nat.sub_eq_zero_of_le h
  rw [h0]
  have hz : (0 + (step - 1)) / step = 0 := by
    apply Nat.div_eq_of_lt
    omega
  rw [hz]
  rfl

lemma pyRange_cons (start stop step : ℕ) (hs : 0 < step) (h : start < stop) :
    pyRange start stop step = start :: pyRange (start + step) stop step := by
  unfold pyRange
  have hn : (stop - start + (step - 1)) / step = (stop - start - 1) / step + 1 := by
    have h1 : stop - start + (step - 1) = (stop - start - 1) + step := by omega
    rw [h1, Nat.add_div_right _ hs]
  have hn2 : (stop - (start + step) + (step - 1)) / step = (stop - start - 1) / step := by
    rcases le_or_lt (stop - start) step with hle | hlt
    · have h1 : stop - (start + step) = 0 := by omega
      rw [h1, Nat.div_eq_of_lt (by omega), Nat.div_eq_of_lt (by omega)]
    · have h1 : stop - (start + step) + (step - 1) = stop - start - 1 := by omega
      rw [h1]
  rw [hn, hn2, List.range_succ_eq_map]
  simp only [List.map_cons, List.map_map, List.cons.injEq]
  refine ⟨by simp, ?_⟩
  apply List.map_congr_left
  intro i _
  simp only [Function.comp_apply, Nat.succ_eq_add_one]
  ring

lemma chunk_of_length_le (C : List α) (S : ℕ) (hS : 0 < S) (h : C.length ≤ S) :
    chunk C S = [C] := by
  unfold chunk
  rw [pyRange_eq_nil _ _ _ hS h, List.take_of_length_le h]
  rfl

lemma chunk_cons (C : List α) (S : ℕ) (hS : 0 < S) (h : S < C.length) :
    chunk C S = C.take S :: chunk (C.drop S) S := by
  have hsh : pyRange (S + S) C.length S = (pyRange S (C.length - S) S).map (· + S) := by
    unfold pyRange
    have h1 : C.length - (S + S) = C.length - S - S := by omega
    rw [h1, List.map_map]
    apply List.map_congr_left
    intro i _
    simp only [Function.comp_apply]
    ring
  unfold chunk
  rw [List.length_drop, pyRange_cons _ _ _ hS h, List.map_cons, hsh, List.map_map]
  simp only [List.cons.injEq]
  refine ⟨by trivial, by trivial, ?_⟩
  apply List.map_congr_left
  intro idx _
  simp only [Function.comp_apply, List.drop_drop]
  rw [Nat.add_comm]

lemma chunk_ne_nil (C : List α) (S : ℕ) : chunk C S ≠ [] := by
  unfold chunk
  exact List.cons_ne_nil _ _

lemma chunk_flatten_aux (S : ℕ) (hS : 0 < S) :
    ∀ n (C : List α), C.length ≤ n → (chunk C S).flatten = C := by
  intro n
  induction n with
  | zero =>
    intro C hC
    rw [chunk_of_length_le C S hS (by omega)]
    simp
  | succ n ih =>
    intro C hC
    rcases le_or_lt C.length S with hle | hlt
    · rw [chunk_of_length_le C S hS hle]
      simp
    · rw [chunk_cons C S hS hlt, List.flatten_cons,
        ih (C.drop S) (by rw [List.length_drop]; omega)]
      exact List.take_append_drop S C

lemma chunk_length_aux (S : ℕ) (hS : 0 < S) :
    ∀ n (C : List α), C.length ≤ n → 0 < C.length →
      (chunk C S).length = (C.length + S - 1) / S := by
  intro n
  induction n with
  | zero => intro C hC hpos; omega
  | succ n ih =>
    intro C hC hpos
    rcases le_or_lt C.length S with hle | hlt
    · rw [chunk_of_length_le C S hS hle]
      have h1 : C.length + S - 1 = (C.length - 1) + S := by omega
      rw [h1, Nat.add_div_right _ hS, Nat.div_eq_of_lt (show C.length - 1 < S by omega)]
      simp
    · rw [chunk_cons C S hS hlt, List.length_cons]
      have hdl : (C.drop S).length = C.length - S := List.length_drop S C
      have hb1 : (C.drop S).length ≤ n := by rw [hdl]; omega
      have hb2 : 0 < (C.drop S).length := by rw [hdl]; omega
      rw [ih (C.drop S) hb1 hb2, hdl]
      have h1 : C.length - S + S - 1 = C.length - 1 := by omega
      have h2 : C.length + S - 1 = (C.length - 1) + S := by omega
      rw [h1, h2, Nat.add_div_right _ hS]

lemma chunk_map_length_aux (S : ℕ) (hS : 0 < S) :
    ∀ n (C : List α), C.length ≤ n →
      (chunk C S).map List.length =
        List.replicate ((chunk C S).length - 1) S
          ++ [C.length - ((chunk C S).length - 1) * S] := by
  intro n
  induction n with
  | zero =>
    intro C hC
    rw [chunk_of_length_le C S hS (by omega)]
    simp
  | succ n ih =>
    intro C hC
    rcases le_or_lt C.length S with hle | hlt
    · rw [chunk_of_length_le C S hS hle]
      simp
    · rw [chunk_cons C S hS hlt]
      have hdl : (C.drop S).length = C.length - S := List.length_drop S C
      have hb1 : (C.drop S).length ≤ n := by rw [hdl]; omega
      have hrec := ih (C.drop S) hb1
      obtain ⟨k, hk⟩ : ∃ k, (chunk (C.drop S) S).length = k + 1 := by
        rcases hcl : (chunk (C.drop S) S).length with _ | k
        · exact absurd (List.length_eq_zero.mp hcl) (chunk_ne_nil _ _)
        · exact ⟨k, rfl⟩
      rw [hk] at hrec
      simp only [Nat.add_sub_cancel] at hrec
      rw [List.map_cons, hrec, List.length_cons, hk]
      simp only [Nat.add_sub_cancel]
      rw [List.replicate_succ, List.cons_append]
      simp only [List.cons.injEq]
      refine ⟨by rw [List.length_take]; omega, ?_⟩
      congr 1
      congr 1
      rw [hdl]
      have hmul : (k + 1) * S = k * S + S := by ring
      omega

/-- `PIECE_SIZE` hard-coded in `publish_big_site` of
`scripts/publish_big_site.py`. -/
def PIECE_SIZE : ℕ := 15000

/-- `PIECE_SIZE` hard-coded in `publish_big_site` of
`move/blocksite/publish_big_site.py`. -/
def PIECE_SIZE_move : ℕ := 10000

/-- One external ledger call issued by `publish_big_site`, tagged with the
content slice it carries. -/
inductive Call where
  | create (payload : List ℕ)
  | append (payload : List ℕ)
deriving DecidableEq

/-- The ordered sequence of external calls issued by `publish_big_site(site)`
with piece size `S`: `create_blocksite(package_id, site[:S])` first, then
`add_piece(site_id, site[idx:idx+S], package_id)` for each
`idx in range(S, len(site), S)`, in loop order. -/
def publish_big_site_calls (site : List ℕ) (S : ℕ) : List Call :=
  Call.create (site.take S) ::
    (pyRange S site.length S).map (fun idx => Call.append ((site.drop idx).take S))

lemma publish_big_site_calls_of_length_le (site : List ℕ) (S : ℕ) (hS : 0 < S)
    (h : site.length ≤ S) :
    publish_big_site_calls site S = [Call.create site] := by
  unfold publish_big_site_calls
  rw [pyRange_eq_nil _ _ _ hS h, List.take_of_length_le h]
  rfl

/-- C1: for every content `C` and every piece size `S > 0`, concatenating the
pieces produced by chunking `C` with size `S` (the create payload `C[:S]`
followed by the append payloads `C[idx:idx+S]` in index order) reproduces `C`
exactly. -/
theorem chunk_flatten (C : List α) (S : ℕ) (hS : 0 < S) :
    (chunk C S).flatten = C :=
  chunk_flatten_aux S hS C.length C le_rfl

/-- C1 witness: concatenating the chunks of a concrete content with `S = 2`
reproduces it. -/
theorem chunk_flatten_witness :
    0 < 2 ∧ (chunk [9, 8, 7, 6, 5] 2).flatten = [9, 8, 7, 6, 5] :=
  ⟨by decide, chunk_flatten [9, 8, 7, 6, 5] 2 (by decide)⟩

/-- C2: chunking yields exactly `ceil(len(C)/S)` pieces for nonempty content;
the piece lengths are `S` for every piece but the last, the last piece having
length `len(C) - (count-1)*S`; zero-length content yields exactly one empty
piece, so the create call is still issued once with an empty payload and no
append call follows. -/
theorem chunk_spec (C : List α) (S : ℕ) (hS : 0 < S) :
    (0 < C.length → (chunk C S).length = (C.length + S - 1) / S) ∧
    (chunk C S).map List.length =
      List.replicate ((chunk C S).length - 1) S
        ++ [C.length - ((chunk C S).length - 1) * S] ∧
    (∀ p ∈ (chunk C S).dropLast, p.length = S) ∧
    (C.length = 0 → chunk C S = [[]]) ∧
    publish_big_site_calls [] S = [Call.create []] := by
  have hmap := chunk_map_length_aux S hS C.length C le_rfl
  have hdrop : ((chunk C S).dropLast).map List.length =
      List.replicate ((chunk C S).length - 1) S := by
    rw [List.map_dropLast, hmap, List.dropLast_concat]
  refine ⟨fun h => chunk_length_aux S hS C.length C le_rfl h, hmap, ?_, ?_, ?_⟩
  · intro p hp
    have hmem : p.length ∈ ((chunk C S).dropLast).map List.length :=
      List.mem_map_of_mem _ hp
    rw [hdrop] at hmem
    exact List.eq_of_mem_replicate hmem
  · intro h
    rw [chunk_of_length_le C S hS (by omega), List.length_eq_zero.mp h]
  · exact publish_big_site_calls_of_length_le [] S hS (by simp)

/-- C2 witness: a concrete content of 5 elements with `S = 2` has 3 pieces of
lengths 2, 2, 1, and the empty content gives one empty piece. -/
theorem chunk_spec_witness :
    0 < 2 ∧
    ((0 < ([9, 8, 7, 6, 5] : List ℕ).length →
        (chunk [9, 8, 7, 6, 5] 2).length = (([9, 8, 7, 6, 5] : List ℕ).length + 2 - 1) / 2) ∧
      (chunk [9, 8, 7, 6, 5] 2).map List.length =
        List.replicate ((chunk ([9, 8, 7, 6, 5] : List ℕ) 2).length - 1) 2
          ++ [([9, 8, 7, 6, 5] : List ℕ).length - ((chunk ([9, 8, 7, 6, 5] : List ℕ) 2).length - 1) * 2] ∧
      (∀ p ∈ (chunk ([9, 8, 7, 6, 5] : List ℕ) 2).dropLast, p.length = 2) ∧
      (([9, 8, 7, 6, 5] : List ℕ).length = 0 → chunk ([9, 8, 7, 6, 5] : List ℕ) 2 = [[]]) ∧
      publish_big_site_calls [] 2 = [Call.create []]) :=
  ⟨by decide, chunk_spec [9, 8, 7, 6, 5] 2 (by decide)⟩

/-- C9: when the content fits in a single piece (`len(site) ≤ S`), the publish
sequence issues exactly one external call, the creation call carrying the
whole content, and zero append calls. -/
theorem publish_single_piece (site : List ℕ) (S : ℕ) (hS : 0 < S)
    (h : site.length ≤ S) :
    publish_big_site_calls site S = [Call.create site] ∧
    ∀ p, Call.append p ∉ publish_big_site_calls site S := by
  have heq := publish_big_site_calls_of_length_le site S hS h
  refine ⟨heq, fun p hp => ?_⟩
  rw [heq] at hp
  simp at hp

/-- C9 witness: a 3-element content with the script's `PIECE_SIZE` is
published with a single creation call. -/
theorem publish_single_piece_witness :
    0 < PIECE_SIZE ∧ ([3, 2, 1] : List ℕ).length ≤ PIECE_SIZE ∧
    (publish_big_site_calls [3, 2, 1] PIECE_SIZE = [Call.create [3, 2, 1]] ∧
      ∀ p, Call.append p ∉ publish_big_site_calls [3, 2, 1] PIECE_SIZE) :=
  ⟨by decide, by decide, publish_single_piece [3, 2, 1] PIECE_SIZE (by decide) (by decide)⟩

/-- The error kinds of the design taxonomy that the scripts can hit while
handling a receipt: a `json.loads` failure or missing `objectChanges` key is
`ParseError`; indexing `[0]` into an empty candidate list is
`ObjectNotFoundError`; `ProcessError` stands for the external tool failing to
run. -/
inductive PublishError where
  | ProcessError
  | ParseError
  | ObjectNotFoundError
deriving DecidableEq

/-- One entry of the receipt's `objectChanges` list, with the two fields the
scripts read. -/
structure ObjectChange where
  objectId : String
  objectType : String
deriving DecidableEq

/-- The shape of one external call's stdout as the scripts see it: not valid
JSON, valid JSON without an `objectChanges` field, or valid JSON carrying an
`objectChanges` list. -/
inductive CallOutput where
  | invalid
  | missingChanges
  | changes (cs : List ObjectChange)
deriving DecidableEq

/-- Python `str.startswith`: is `pre` a prefix of `s`? -/
def startswith (s pre : String) : Bool :=
  pre.data.isPrefixOf s.data

/-- `json.loads(output.stdout)` followed by the `output["objectChanges"]`
lookup: malformed output or a missing field raises (ParseError); otherwise the
change list is obtained. -/
def parseOutput : CallOutput → Except PublishError (List ObjectChange)
  | CallOutput.invalid => Except.error PublishError.ParseError
  | CallOutput.missingChanges => Except.error PublishError.ParseError
  | CallOutput.changes cs => Except.ok cs

/-- Receipt handling of `create_blocksite(package_id, contents)` in
`scripts/publish_big_site.py`: parse the stdout, keep the `objectId` of every
`objectChanges` entry whose `objectType` starts with
`f"{package_id}::blocksite::BlockSite"`, and return element `[0]` of that
list; `[0]` of an empty list raises IndexError (ObjectNotFoundError). -/
def create_blocksite (package_id : String) (raw : CallOutput) :
    Except PublishError String :=
  match parseOutput raw with
  | Except.error e => Except.error e
  | Except.ok cs =>
      match (cs.filter (fun x =>
          startswith x.objectType (package_id ++ "::blocksite::BlockSite"))).map
          (fun x => x.objectId) with
      | [] => Except.error PublishError.ObjectNotFoundError
      | i :: _ => Except.ok i

/-- Receipt handling of `add_piece(site_id, piece, package_id)` in
`scripts/publish_big_site.py`: parse the stdout, take the `objectId` of every
`objectChanges` entry with no filtering, and return element `[0]`. -/
def add_piece (site_id pieceArg package_id : String) (raw : CallOutput) :
    Except PublishError String :=
  match parseOutput raw with
  | Except.error e => Except.error e
  | Except.ok cs =>
      match cs.map (fun x => x.objectId) with
      | [] => Except.error PublishError.ObjectNotFoundError
      | i :: _ => Except.ok i

/-- The session state when `publish_big_site` stops: the bound target (if piece
0 succeeded), the number of pieces committed, and the error that aborted the
run, if any. -/
structure SessionResult where
  target : Option String
  cursor : ℕ
  error : Option PublishError
deriving DecidableEq

/-- The append loop of `publish_big_site`: each remaining piece is submitted by
a blocking call; call `k` is issued only after call `k-1` has returned, and an
error aborts the loop with the last consistent state. -/
def run_appends (oracle : ℕ → CallOutput) (site_id package_id : String) :
    List (List ℕ) → ℕ → ℕ → SessionResult
  | [], _, cursor => { target := some site_id, cursor := cursor, error := none }
  | p :: rest, k, cursor =>
      match add_piece site_id (toString p) package_id (oracle k) with
      | Except.ok _ => run_appends oracle site_id package_id rest (k + 1) (cursor + 1)
      | Except.error e =>
          { target := some site_id, cursor := cursor, error := some e }

/-- `publish_big_site(site, package_id)` with the receipt of call number `k`
supplied by `oracle k`: create the blocksite from `site[:S]`, then append the
remaining slices one at a time. -/
def publish_big_site_run (oracle : ℕ → CallOutput) (site : List ℕ) (S : ℕ)
    (package_id : String) : SessionResult :=
  match create_blocksite package_id (oracle 0) with
  | Except.error e => { target := none, cursor := 0, error := some e }
  | Except.ok site_id =>
      run_appends oracle site_id package_id
        ((pyRange S site.length S).map (fun idx => (site.drop idx).take S)) 1 1

/-- The call numbers of the append calls the loop actually issues, starting at
call number `k`: issuing stops right after the first failed call. -/
def append_calls_issued (oracle : ℕ → CallOutput) (site_id package_id : String) :
    List (List ℕ) → ℕ → List ℕ
  | [], _ => []
  | p :: rest, k =>
      match add_piece site_id (toString p) package_id (oracle k) with
      | Except.ok _ => k :: append_calls_issued oracle site_id package_id rest (k + 1)
      | Except.error _ => [k]

/-- C4: after a creation call the orchestrator keeps exactly the
`objectChanges` entries whose `objectType` starts with the prefix
`"<package_id>::blocksite::BlockSite"` and returns the `objectId` of the first
such entry; when no entry matches, the creation fails (IndexError, the
design's ObjectNotFoundError) and the whole publish run ends with `cursor = 0`
and no target bound. -/
theorem create_blocksite_spec (package_id : String) (cs : List ObjectChange)
    (site : List ℕ) (S : ℕ)
    (hnone : ∀ c ∈ cs,
      startswith c.objectType (package_id ++ "::blocksite::BlockSite") = false) :
    create_blocksite package_id (CallOutput.changes cs) =
      Except.error PublishError.ObjectNotFoundError ∧
    publish_big_site_run (fun _ => CallOutput.changes cs) site S package_id =
      { target := none, cursor := 0,
        error := some PublishError.ObjectNotFoundError } ∧
    ∀ cs2 c, ((cs2.filter (fun x =>
        startswith x.objectType (package_id ++ "::blocksite::BlockSite"))).head?
          = some c) →
      create_blocksite package_id (CallOutput.changes cs2) =
        Except.ok c.objectId := by
  have hfil : cs.filter (fun x =>
      startswith x.objectType (package_id ++ "::blocksite::BlockSite")) = [] := by
    rw [List.filter_eq_nil_iff]
    intro a ha
    simp [hnone a ha]
  refine ⟨?_, ?_, ?_⟩
  · simp [create_blocksite, parseOutput, hfil]
  · simp [publish_big_site_run, create_blocksite, parseOutput, hfil]
  · intro cs2 c hc
    rcases hsplit : cs2.filter (fun x =>
        startswith x.objectType (package_id ++ "::blocksite::BlockSite"))
      with _ | ⟨a, t⟩
    · rw [hsplit] at hc
      simp at hc
    · rw [hsplit] at hc
      simp only [List.head?_cons, Option.some.injEq] at hc
      subst hc
      simp [create_blocksite, parseOutput, hsplit]

/-- C4 witness: a receipt whose only change has a non-matching type makes the
creation fail with the session left at `cursor = 0` and no target, while a
receipt with a matching entry returns its `objectId`. -/
theorem create_blocksite_spec_witness :
    create_blocksite "0xp" (CallOutput.changes
        [{ objectId := "0xa", objectType := "0xq::other::Thing" }]) =
      Except.error PublishError.ObjectNotFoundError ∧
    publish_big_site_run
        (fun _ => CallOutput.changes
          [{ objectId := "0xa", objectType := "0xq::other::Thing" }]) [1] 1 "0xp" =
      { target := none, cursor := 0,
        error := some PublishError.ObjectNotFoundError } ∧
    create_blocksite "0xp" (CallOutput.changes
        [{ objectId := "0xb", objectType := "0xp::blocksite::BlockSite" }]) =
      Except.ok "0xb" := by
  have h := create_blocksite_spec "0xp"
    [{ objectId := "0xa", objectType := "0xq::other::Thing" }] [1] 1 (by decide)
  exact ⟨h.1, h.2.1,
    h.2.2 [{ objectId := "0xb", objectType := "0xp::blocksite::BlockSite" }]
      { objectId := "0xb", objectType := "0xp::blocksite::BlockSite" } (by decide)⟩

/-- C6: an append call that succeeds returns the `objectId` of the first entry
of the receipt's `objectChanges`, with no filtering by `objectType`: any entry
type on the first entry yields the same identifier, and the result is the
first element of the unfiltered `objectId` list. -/
theorem add_piece_first_entry (site_id pieceArg package_id : String)
    (c : ObjectChange) (rest : List ObjectChange) :
    add_piece site_id pieceArg package_id (CallOutput.changes (c :: rest)) =
      Except.ok c.objectId ∧
    (∀ t, add_piece site_id pieceArg package_id
        (CallOutput.changes ({ c with objectType := t } :: rest)) =
      Except.ok c.objectId) ∧
    ∀ i, add_piece site_id pieceArg package_id (CallOutput.changes (c :: rest)) =
        Except.ok i → ((c :: rest).map (fun x => x.objectId)).head? = some i := by
  refine ⟨?_, ?_, ?_⟩
  · simp [add_piece, parseOutput]
  · intro t
    simp [add_piece, parseOutput]
  · intro i hi
    simp [add_piece, parseOutput] at hi
    simp [hi]

/-- C7: an external call whose output is not valid structured data or lacks the
`objectChanges` field makes both `create_blocksite` and `add_piece` fail with
ParseError (an uncaught `json.loads` or key error); such an output is never
treated as success. -/
theorem parse_error_never_success (site_id pieceArg package_id : String)
    (raw : CallOutput)
    (h : raw = CallOutput.invalid ∨ raw = CallOutput.missingChanges) :
    create_blocksite package_id raw = Except.error PublishError.ParseError ∧
    add_piece site_id pieceArg package_id raw =
      Except.error PublishError.ParseError ∧
    (∀ i, create_blocksite package_id raw ≠ Except.ok i) ∧
    ∀ i, add_piece site_id pieceArg package_id raw ≠ Except.ok i := by
  rcases h with rfl | rfl <;>
    exact ⟨rfl, rfl, fun i hi => by simp [create_blocksite, parseOutput] at hi,
      fun i hi => by simp [add_piece, parseOutput] at hi⟩

/-- C7 witness: invalid output gives ParseError on both call kinds. -/
theorem parse_error_never_success_witness :
    create_blocksite "0xp" CallOutput.invalid =
      Except.error PublishError.ParseError ∧
    add_piece "0xs" "[1]" "0xp" CallOutput.invalid =
      Except.error PublishError.ParseError ∧
    (∀ i, create_blocksite "0xp" CallOutput.invalid ≠ Except.ok i) ∧
    ∀ i, add_piece "0xs" "[1]" "0xp" CallOutput.invalid ≠ Except.ok i :=
  parse_error_never_success "0xs" "[1]" "0xp" CallOutput.invalid (Or.inl rfl)

lemma append_calls_issued_consecutive (oracle : ℕ → CallOutput)
    (site_id package_id : String) :
    ∀ (pieces : List (List ℕ)) (k : ℕ),
      ∃ j, append_calls_issued oracle site_id package_id pieces k =
          List.range' k j ∧ j ≤ pieces.length := by
  intro pieces
  induction pieces with
  | nil =>
    intro k
    exact ⟨0, rfl, by simp⟩
  | cons p rest ih =>
    intro k
    unfold append_calls_issued
    rcases hcall : add_piece site_id (toString p) package_id (oracle k) with e | x
    · exact ⟨1, by rw [List.range'_one], by simp⟩
    · obtain ⟨j, hj, hle⟩ := ih (k + 1)
      refine ⟨j + 1, ?_, by simpa using hle⟩
      rw [List.range'_succ, hj]

/-- C3: publishing 25000 bytes with the piece size 10000 of
`move/blocksite/publish_big_site.py` produces pieces of sizes
[10000, 10000, 5000]; the creation call carries piece 0 and exactly two append
calls follow, carrying pieces 1 and 2 in that order; with well-formed receipts
the run completes with all three pieces submitted, `cursor = 3`. -/
theorem publish_25000 (site : List ℕ) (h : site.length = 25000) :
    publish_big_site_calls site PIECE_SIZE_move =
      [Call.create (site.take 10000),
       Call.append ((site.drop 10000).take 10000),
       Call.append ((site.drop 20000).take 10000)] ∧
    (chunk site PIECE_SIZE_move).map List.length = [10000, 10000, 5000] ∧
    publish_big_site_run
        (fun _ => CallOutput.changes
          [{ objectId := "0xsite", objectType := "0xpkg::blocksite::BlockSite" }])
        site PIECE_SIZE_move "0xpkg" =
      { target := some "0xsite", cursor := 3, error := none } := by
  have hr : pyRange 10000 25000 10000 = [10000, 20000] := by decide
  have hcreate : create_blocksite "0xpkg"
      (CallOutput.changes
        [{ objectId := "0xsite", objectType := "0xpkg::blocksite::BlockSite" }]) =
      Except.ok "0xsite" := rfl
  refine ⟨?_, ?_, ?_⟩
  · unfold publish_big_site_calls PIECE_SIZE_move
    rw [h, hr]
    rfl
  · unfold chunk PIECE_SIZE_move
    rw [h, hr]
    simp [List.length_take, List.length_drop, h]
  · unfold publish_big_site_run PIECE_SIZE_move
    rw [h, hr, hcreate]
    simp [run_appends, add_piece, parseOutput]

/-- C3 witness: a concrete 25000-element content. -/
theorem publish_25000_witness :
    (List.replicate 25000 (0 : ℕ)).length = 25000 ∧
    (publish_big_site_calls (List.replicate 25000 (0 : ℕ)) PIECE_SIZE_move =
      [Call.create ((List.replicate 25000 (0 : ℕ)).take 10000),
       Call.append (((List.replicate 25000 (0 : ℕ)).drop 10000).take 10000),
       Call.append (((List.replicate 25000 (0 : ℕ)).drop 20000).take 10000)] ∧
     (chunk (List.replicate 25000 (0 : ℕ)) PIECE_SIZE_move).map List.length =
       [10000, 10000, 5000] ∧
     publish_big_site_run
        (fun _ => CallOutput.changes
          [{ objectId := "0xsite", objectType := "0xpkg::blocksite::BlockSite" }])
        (List.replicate 25000 (0 : ℕ)) PIECE_SIZE_move "0xpkg" =
      { target := some "0xsite", cursor := 3, error := none }) :=
  ⟨List.length_replicate 25000 0,
   publish_25000 (List.replicate 25000 (0 : ℕ)) (List.length_replicate 25000 0)⟩

/-- C5: piece submission is strictly sequential and in strictly increasing
index order: the issued trace is a single ordered list whose call at position
`j` carries exactly piece `j`, the submitted byte offsets strictly increase,
and the append loop issues consecutive call numbers, each call being issued
only after the previous one has returned (the first failure stops
issuance), so no two pieces of a session are in flight together. -/
theorem publish_sequential (site : List ℕ) (S : ℕ) (oracle : ℕ → CallOutput)
    (site_id package_id : String) (pieces : List (List ℕ)) (k : ℕ) (hS : 0 < S) :
    List.Pairwise (· < ·) (0 :: pyRange S site.length S) ∧
    (∀ j, (publish_big_site_calls site S)[j]? =
      ((chunk site S)[j]?).map
        (fun p => if j = 0 then Call.create p else Call.append p)) ∧
    ∃ j, append_calls_issued oracle site_id package_id pieces k =
        List.range' k j ∧ j ≤ pieces.length ∧
        List.Pairwise (· < ·)
          (append_calls_issued oracle site_id package_id pieces k) := by
  refine ⟨?_, ?_, ?_⟩
  · constructor
    · intro x hx
      unfold pyRange at hx
      simp only [List.mem_map, List.mem_range] at hx
      obtain ⟨i, hi, rfl⟩ := hx
      omega
    · unfold pyRange
      rw [List.pairwise_map]
      refine (List.pairwise_lt_range _).imp ?_
      intro a b hab
      have hmul : a * S < b * S := Nat.mul_lt_mul_of_pos_right hab hS
      omega
  · intro j
    unfold publish_big_site_calls chunk
    cases j with
    | zero => simp
    | succ j =>
      simp only [List.getElem?_cons_succ, List.getElem?_map]
      cases hidx : (pyRange S site.length S)[j]? with
      | none => rfl
      | some idx => simp
  · obtain ⟨j, hj, hle⟩ :=
      append_calls_issued_consecutive oracle site_id package_id pieces k
    refine ⟨j, hj, hle, ?_⟩
    rw [hj]
    exact List.pairwise_lt_range' k j

/-- C5 witness: a concrete session of two pieces with well-formed receipts. -/
theorem publish_sequential_witness :
    0 < 10 ∧
    (List.Pairwise (· < ·) (0 :: pyRange 10 ([] : List ℕ).length 10) ∧
     (∀ j, (publish_big_site_calls ([] : List ℕ) 10)[j]? =
       ((chunk ([] : List ℕ) 10)[j]?).map
         (fun p => if j = 0 then Call.create p else Call.append p)) ∧
     ∃ j, append_calls_issued
          (fun _ => CallOutput.changes
            [{ objectId := "0xsite", objectType := "t" }]) "0xsite" "0xpkg"
          [[1], [2]] 1 =
        List.range' 1 j ∧ j ≤ ([[1], [2]] : List (List ℕ)).length ∧
        List.Pairwise (· < ·)
          (append_calls_issued
            (fun _ => CallOutput.changes
              [{ objectId := "0xsite", objectType := "t" }]) "0xsite" "0xpkg"
            [[1], [2]] 1)) :=
  ⟨by decide, publish_sequential [] 10
    (fun _ => CallOutput.changes [{ objectId := "0xsite", objectType := "t" }])
    "0xsite" "0xpkg" [[1], [2]] 1 (by decide)⟩

/-- `SUI_BINARY` of `scripts/const.py`. -/
def SUI_BINARY : String := "sui"

/-- `GAS_BUDGET` of `scripts/const.py`. -/
def GAS_BUDGET : ℕ := 500000000

/-- `BLOCKSITE_CONTRACT` of `scripts/const.py`: the contract directory entered
before each external call. -/
def BLOCKSITE_CONTRACT : String := "../move/blocksite"

/-- One process-level side effect performed by the script functions: mutating
the ambient process working directory (`os.chdir`) or running the external
tool (`subprocess.run`). -/
inductive Effect where
  | chdir (dir : String)
  | runProc (command : List String)
deriving DecidableEq

/-- The `sui client call` command list built by `create_blocksite`. -/
def create_command (package_id contentsArg : String) : List String :=
  [SUI_BINARY, "client", "call", "--function", "create_to_sender", "--module",
   "blocksite", "--package", package_id, "--gas-budget", toString GAS_BUDGET,
   "--json", "--args", contentsArg, "0x6"]

/-- The `sui client call` command list built by `add_piece`. -/
def add_piece_command (site_id pieceArg package_id : String) : List String :=
  [SUI_BINARY, "client", "call", "--function", "add_piece", "--module",
   "blocksite", "--package", package_id, "--gas-budget", toString GAS_BUDGET,
   "--json", "--args", site_id, pieceArg, "0x6"]

/-- The effect sequence of `create_blocksite` in `scripts/publish_big_site.py`
on a normal return, as a function of the working directory `cwd0` saved by
`old_dir = os.getcwd()`: `os.chdir(BLOCKSITE_CONTRACT)`, `subprocess.run`,
`os.chdir(old_dir)`. -/
def create_blocksite_effects (cwd0 package_id contentsArg : String) :
    List Effect :=
  [Effect.chdir BLOCKSITE_CONTRACT,
   Effect.runProc (create_command package_id contentsArg),
   Effect.chdir cwd0]

/-- The effect sequence of `add_piece` in `scripts/publish_big_site.py` on a
normal return. -/
def add_piece_effects (cwd0 site_id pieceArg package_id : String) :
    List Effect :=
  [Effect.chdir BLOCKSITE_CONTRACT,
   Effect.runProc (add_piece_command site_id pieceArg package_id),
   Effect.chdir cwd0]

/-- The ambient process working directory after executing a list of effects
starting from directory `cwd0`. -/
def cwdAfter (cwd0 : String) : List Effect → String
  | [] => cwd0
  | Effect.chdir d :: rest => cwdAfter d rest
  | Effect.runProc _ :: rest => cwdAfter cwd0 rest

/-- The ambient working directory observed by each external call while a list
of effects is executed from directory `cwd0`. -/
def runCwds (cwd0 : String) : List Effect → List String
  | [] => []
  | Effect.chdir d :: rest => runCwds d rest
  | Effect.runProc _ :: rest => cwd0 :: runCwds cwd0 rest

/-- C8 counterexample: the code does NOT pass the addressing context as an
explicit parameter of the call; `create_blocksite` mutates the ambient
process-wide working directory with `os.chdir(BLOCKSITE_CONTRACT)` to
establish the call's context, and the external call observes that mutated
ambient directory rather than the caller's. -/
theorem create_mutates_ambient_cwd :
    Effect.chdir BLOCKSITE_CONTRACT ∈
      create_blocksite_effects "/work" "0xpkg" "[1]" ∧
    runCwds "/work" (create_blocksite_effects "/work" "0xpkg" "[1]") =
      [BLOCKSITE_CONTRACT] ∧
    BLOCKSITE_CONTRACT ≠ "/work" :=
  ⟨by simp [create_blocksite_effects], rfl, by decide⟩

/-- C8 amended: every external call of `create_blocksite` and `add_piece` has
its addressing context established by mutating ambient process-wide state:
the function chdirs into `BLOCKSITE_CONTRACT`, so the call always observes
the working directory `BLOCKSITE_CONTRACT` — shared, mutable, process-wide —
whatever directory the caller was in, and the caller's directory is restored
only after the call. -/
theorem calls_use_ambient_contract_dir
    (cwd0 package_id contentsArg site_id pieceArg : String) :
    runCwds cwd0 (create_blocksite_effects cwd0 package_id contentsArg) =
      [BLOCKSITE_CONTRACT] ∧
    runCwds cwd0 (add_piece_effects cwd0 site_id pieceArg package_id) =
      [BLOCKSITE_CONTRACT] ∧
    Effect.chdir BLOCKSITE_CONTRACT ∈
      create_blocksite_effects cwd0 package_id contentsArg ∧
    Effect.chdir BLOCKSITE_CONTRACT ∈
      add_piece_effects cwd0 site_id pieceArg package_id :=
  ⟨rfl, rfl, by simp [create_blocksite_effects],
   by simp [add_piece_effects]⟩

/-- C10: whenever `create_blocksite` or `add_piece` returns normally, the
process working directory is back to its value before the call: each function
saves `os.getcwd()`, chdirs into the contract directory for the external
call, and chdirs back to the saved directory before returning. -/
theorem cwd_restored (cwd0 package_id contentsArg site_id pieceArg : String) :
    cwdAfter cwd0 (create_blocksite_effects cwd0 package_id contentsArg) =
      cwd0 ∧
    cwdAfter cwd0 (add_piece_effects cwd0 site_id pieceArg package_id) =
      cwd0 :=
  ⟨rfl, rfl⟩

end BlocksitePublish
